import Mathlib

/-!
Shallow embedding of src/draw.py: the Scaler transform, the motion-command
synthesis performed by plot_drawing, the send request/acknowledge protocol
over the serial port (real or mock), and the stream_and_plot driver loop.
Python floats are modelled by rationals wherever the script only performs
field operations; the one square root (segment velocity) lives in the reals.
Calls to random.uniform are modelled by passing the drawn values in as
explicit parameters, constrained to their ranges in the theorems.
-/

namespace Plotter

/-- SPEED_MULTIPLIER = 20 from the settings block of draw.py. -/
def SPEED_MULTIPLIER : ℚ := 20

/-- BOUNDS = 250 from the settings block of draw.py. -/
def BOUNDS : ℚ := 250

/-- The fields stored on self by Scaler.__init__. -/
structure Scaler where
  smaller_scale : ℚ
  offset_x : ℚ
  offset_y : ℚ
  min_x : ℚ
  min_y : ℚ
  multiplier : ℚ
deriving DecidableEq

/-- Scaler.__init__, with the three random.uniform draws passed in explicitly:
inner for random.uniform(0.25, 0.75), offX and offY for the two offset draws
random.uniform(0, max_offset_x) and random.uniform(0, max_offset_y).
The body computes master_scale = bounds / max(x_range, y_range) with no guard,
and Python raises ZeroDivisionError when max(x_range, y_range) = 0, so
construction returns none exactly in that case. -/
def Scaler.init (min_x max_x min_y max_y bounds inner offX offY : ℚ) :
    Option Scaler :=
  let x_range := max_x - min_x
  let y_range := max_y - min_y
  if max x_range y_range = 0 then none
  else
    let master_scale := bounds / max x_range y_range
    some ⟨inner, offX, offY, min_x, min_y, master_scale * inner⟩

/-- max_offset_x = bounds - final_w as computed in Scaler.__init__, where
final_w = x_range * master_scale * smaller_scale. -/
def maxOffsetX (min_x max_x min_y max_y bounds inner : ℚ) : ℚ :=
  bounds -
    (max_x - min_x) * (bounds / max (max_x - min_x) (max_y - min_y)) * inner

/-- max_offset_y = bounds - final_h as computed in Scaler.__init__, where
final_h = y_range * master_scale * smaller_scale. -/
def maxOffsetY (min_x max_x min_y max_y bounds inner : ℚ) : ℚ :=
  bounds -
    (max_y - min_y) * (bounds / max (max_x - min_x) (max_y - min_y)) * inner

/-- Scaler.scale: shift to 0, scale up, apply the random offset; the literal 5
is the fixed margin added to both axes, and y is negated. -/
def Scaler.scale (sc : Scaler) (x y : ℚ) : ℚ × ℚ :=
  ((x - sc.min_x) * sc.multiplier + sc.offset_x + 5,
    -((y - sc.min_y) * sc.multiplier + sc.offset_y + 5))

/-- The abstract motion commands emitted by plot_drawing: pen up
(G1 Z0 F7000), pen down (G1 Z-8 F7000), rapid move to a stroke start
(G0 X.. Y.. F11500), and a timed feed move (G1 X.. Y.. F..). -/
inductive MotionCommand where
  | penUp : MotionCommand
  | penDown : MotionCommand
  | rapidMove (x y : ℚ) : MotionCommand
  | feedMove (x y : ℚ) (feedRate : ℝ) : MotionCommand

/-- One stroke of a drawing: stroke[0] = x pixels, stroke[1] = y pixels,
stroke[2] = cumulative millisecond timestamps. -/
structure Stroke where
  xs : List ℚ
  ys : List ℚ
  ts : List ℚ

/-- delta_ms = timestamps[i] - timestamps[i-1] for the segment (i-1, i). -/
def deltaMs (st : Stroke) (i : ℕ) : ℚ :=
  st.ts.getD i 0 - st.ts.getD (i - 1) 0

/-- scaler.scale applied to the point with index i of a stroke. -/
def scaledPoint (sc : Scaler) (st : Stroke) (i : ℕ) : ℚ × ℚ :=
  sc.scale (st.xs.getD i 0) (st.ys.getD i 0)

/-- velocity = math.sqrt((x - x_prior)^2 + (y - y_prior)^2) / delay_seconds
with delay_seconds = delta_ms / 1000, in device space. -/
noncomputable def velocity (sc : Scaler) (st : Stroke) (i : ℕ) : ℝ :=
  Real.sqrt
      ((((scaledPoint sc st i).1 - (scaledPoint sc st (i - 1)).1 : ℚ) : ℝ) ^ 2 +
        (((scaledPoint sc st i).2 - (scaledPoint sc st (i - 1)).2 : ℚ) : ℝ) ^ 2) /
    ((deltaMs st i : ℝ) / 1000)

/-- The commands the inner loop of plot_drawing emits for the segment
(i-1, i): skip when delay_seconds <= 0, skip when velocity <= 0, otherwise
one feed move at rate min(velocity * SPEED_MULTIPLIER, 11500). -/
noncomputable def segCmds (sc : Scaler) (st : Stroke) (i : ℕ) :
    List MotionCommand :=
  if (deltaMs st i : ℝ) / 1000 ≤ 0 then []
  else if velocity sc st i ≤ 0 then []
  else
    [MotionCommand.feedMove (scaledPoint sc st i).1 (scaledPoint sc st i).2
        (min (velocity sc st i * (SPEED_MULTIPLIER : ℝ)) 11500)]

/-- The commands plot_drawing emits for one stroke: pen up, rapid move to the
scaled first point, pen down, then the segment loop for i in
range(1, len(x_coords)). -/
noncomputable def strokeCmds (sc : Scaler) (st : Stroke) : List MotionCommand :=
  MotionCommand.penUp ::
    MotionCommand.rapidMove (scaledPoint sc st 0).1 (scaledPoint sc st 0).2 ::
      MotionCommand.penDown ::
        (List.range' 1 (st.xs.length - 1)).flatMap (segCmds sc st)

/-- The full command sequence of plot_drawing for a drawing given as its
stroke list: every stroke in order, then the final pen up. -/
noncomputable def drawingCmds (sc : Scaler) (strokes : List Stroke) :
    List MotionCommand :=
  strokes.flatMap (strokeCmds sc) ++ [MotionCommand.penUp]

/-- How the acknowledgment wait in send classifies the line that made it
stop: an ok line, or a machine error/alarm line carrying the stripped line.
Lines are modelled as their character sequences. -/
inductive AckOutcome where
  | acknowledged : AckOutcome
  | deviceFault (msg : List Char) : AckOutcome
deriving DecidableEq

/-- Whether the first character list starts the second one. -/
def startsWithChars : List Char → List Char → Bool
  | [], _ => true
  | _ :: _, [] => false
  | a :: as, b :: bs => a == b && startsWithChars as bs

/-- Whether the first character list occurs contiguously in the second. -/
def containsChars (pat : List Char) : List Char → Bool
  | [] => startsWithChars pat []
  | b :: bs => startsWithChars pat (b :: bs) || containsChars pat bs

/-- The Python str.strip(): remove whitespace from both ends of a line. -/
def stripChars (l : List Char) : List Char :=
  ((l.dropWhile Char.isWhitespace).reverse.dropWhile Char.isWhitespace).reverse

/-- The Python substring test tok in line.lower() for a lowercase token. -/
def hasTok (tok line : List Char) : Bool :=
  containsChars tok (line.map Char.toLower)

/-- Whether a raw read line, once stripped, contains any of the three tokens
the acknowledgment wait reacts to. -/
def tokenB (line : List Char) : Bool :=
  hasTok "ok".data (stripChars line) || hasTok "error".data (stripChars line) ||
    hasTok "alarm".data (stripChars line)

/-- The while True loop of send for a real port: read a line, strip it, stop
with an acknowledgment when it contains ok, stop with a device fault when it
contains error or alarm, otherwise read again. reads gives the successive
raw lines (an empty string models a read that timed out with no data), k is
the index of the next line to read, and the fuel argument bounds how many
iterations are unrolled: none means the loop has not stopped within fuel
iterations — the source loop itself has no timeout. -/
def ackLoop (reads : ℕ → List Char) : ℕ → ℕ → Option (AckOutcome × ℕ)
  | 0, _ => none
  | fuel + 1, k =>
    let line := stripChars (reads k)
    if hasTok "ok".data line then some (AckOutcome.acknowledged, k + 1)
    else if hasTok "error".data line || hasTok "alarm".data line then
      some (AckOutcome.deviceFault line, k + 1)
    else ackLoop reads fuel (k + 1)

/-- The Python runtime error raised by calling a method an object lacks. -/
inductive PyError where
  | attributeError : PyError
deriving DecidableEq

/-- The port argument of send: a real serial port with its stream of raw
read lines, or an instance of MockSerialPort. -/
inductive Port where
  | real (reads : ℕ → List Char) : Port
  | mock : Port

/-- The branch test of send is written s is not MockSerialPort, an identity
comparison of the port object against the class object itself. Both a real
port and a MockSerialPort instance are distinct objects from the class, so
the test is true for every port value. -/
def isNotMockClass : Port → Bool
  | Port.real _ => true
  | Port.mock => true

/-- send after the write: when isNotMockClass holds it enters the
acknowledgment wait, whose first statement calls s.readline() — a method
MockSerialPort does not define, so a mock port raises AttributeError there.
The else branch (sleep, then drain s.in_waiting, return normally) is
modelled as a normal return. some (.ok r) is a normal return, some (.error e)
an uncaught exception, none a loop that never stopped within fuel. -/
def send (p : Port) (fuel k : ℕ) : Option (Except PyError (AckOutcome × ℕ)) :=
  if isNotMockClass p then
    match p with
    | Port.real reads =>
      match ackLoop reads fuel k with
      | none => none
      | some r => some (Except.ok r)
    | Port.mock => some (Except.error PyError.attributeError)
  else
    some (Except.ok (AckOutcome.acknowledged, k))

/-- plot_drawing sends each emitted command in order and ignores what the
acknowledgment wait observed: the written trace grows by the command before
the wait runs, and the loop continues after a device fault exactly as after
an acknowledgment. none propagates a wait that never stopped. -/
def sendAllReal (reads : ℕ → List Char) (fuel : ℕ) :
    List MotionCommand → ℕ → List MotionCommand →
      Option (List MotionCommand × ℕ)
  | [], k, written => some (written, k)
  | c :: cs, k, written =>
    let written1 := written ++ [c]
    match ackLoop reads fuel k with
    | none => none
    | some (_, k1) => sendAllReal reads fuel cs k1 written1

/-- The loop body of stream_and_plot: for each line, if the line is nonempty
and count < limit, plot it and increment count; elif count >= limit, break;
otherwise (an empty keep-alive line below the limit) continue. Returns the
records handed to plot_drawing, in call order. -/
def streamLoop (limit : ℕ) : List String → ℕ → List String
  | [], _ => []
  | l :: ls, count =>
    if l ≠ "" ∧ count < limit then l :: streamLoop limit ls (count + 1)
    else if limit ≤ count then []
    else streamLoop limit ls count

/-- stream_and_plot restricted to its loop over the fetched lines, starting
from count = 0. -/
def stream_and_plot (lines : List String) (limit : ℕ) : List String :=
  streamLoop limit lines 0

/-- A concrete scaler with multiplier 1 and zero mins and offsets, used to
evaluate the synthesis on sample strokes: scale (x, y) = (x + 5, -(y + 5)). -/
def scUnit : Scaler := ⟨1/2, 0, 0, 0, 0, 1⟩

/-- A single-sample stroke. -/
def stSingle : Stroke := ⟨[0], [0], [0]⟩

/-- A two-sample stroke whose timestamps decrease. -/
def stNonInc : Stroke := ⟨[0, 1], [0, 0], [100, 50]⟩

/-- A two-sample stroke moving from (0,0) to (3,4) in 1000 ms. -/
def stMove : Stroke := ⟨[0, 3], [0, 4], [0, 1000]⟩

/-- The scaler Scaler.init builds from the box [0,10] x [0,10] with
bounds = 250, inner draw 1/2 and zero offset draws. -/
def scHalf : Scaler := ⟨1/2, 0, 0, 0, 0, 25/2⟩

/-- C1 (amended): on a degenerate single-point drawing both ranges are 0, so
max(x_range, y_range) = 0 and the division bounds / max(x_range, y_range) in
Scaler.__init__ raises ZeroDivisionError: construction does not complete, and
no fallback denominator of 1 is applied. -/
theorem scaler_init_degenerate_fails
    (min_x max_x min_y max_y bounds inner offX offY : ℚ)
    (hx : max_x = min_x) (hy : max_y = min_y) :
    Scaler.init min_x max_x min_y max_y bounds inner offX offY = none := by
  subst hx
  subst hy
  simp [Scaler.init]

/-- C1: counterexample to the claim as stated: for the single-point drawing
at (3, 4) with bounds = 250, Scaler construction does not complete normally —
it divides by zero (modelled as none). -/
theorem scaler_init_single_point_counterexample :
    Scaler.init 3 3 4 4 250 (1/2) 0 0 = none := by
  norm_num [Scaler.init]

/-- C1 witness: the amended theorem applied to the single-point drawing at
(7, 9). -/
theorem scaler_init_degenerate_fails_witness :
    Scaler.init 7 7 9 9 250 (1/2) 1 2 = none :=
  scaler_init_degenerate_fails 7 7 9 9 250 (1/2) 1 2 rfl rfl

/-- C5: for every point (x, y) inside the bounding box, if the box has
positive range on at least one axis, bounds is positive, and the random draws
lie in their ranges (inner in [0.25, 0.75], offsets in [0, bounds - final
size]), then both coordinates produced by Scaler.scale lie within
[5, bounds + 5] in absolute value, 5 being the fixed margin. -/
theorem scale_within_bounds
    (min_x max_x min_y max_y bounds inner offX offY x y : ℚ) (sc : Scaler)
    (hx : min_x ≤ max_x) (hy : min_y ≤ max_y)
    (hpos : 0 < max (max_x - min_x) (max_y - min_y))
    (hb : 0 < bounds)
    (hi1 : 1/4 ≤ inner) (hi2 : inner ≤ 3/4)
    (hoX1 : 0 ≤ offX)
    (hoX2 : offX ≤ maxOffsetX min_x max_x min_y max_y bounds inner)
    (hoY1 : 0 ≤ offY)
    (hoY2 : offY ≤ maxOffsetY min_x max_x min_y max_y bounds inner)
    (hx1 : min_x ≤ x) (hx2 : x ≤ max_x) (hy1 : min_y ≤ y) (hy2 : y ≤ max_y)
    (hsc : Scaler.init min_x max_x min_y max_y bounds inner offX offY =
      some sc) :
    (5 ≤ |(sc.scale x y).1| ∧ |(sc.scale x y).1| ≤ bounds + 5) ∧
      (5 ≤ |(sc.scale x y).2| ∧ |(sc.scale x y).2| ≤ bounds + 5) := by
  have hne : max (max_x - min_x) (max_y - min_y) ≠ 0 := ne_of_gt hpos
  have h0 : Scaler.init min_x max_x min_y max_y bounds inner offX offY =
      some ⟨inner, offX, offY, min_x, min_y,
        bounds / max (max_x - min_x) (max_y - min_y) * inner⟩ := by
    rw [Scaler.init]
    simp [hne]
  rw [h0] at hsc
  obtain rfl := (Option.some.inj hsc).symm
  simp only [Scaler.scale]
  have hinner : (0:ℚ) < inner := by linarith
  have hmult : 0 < bounds / max (max_x - min_x) (max_y - min_y) * inner :=
    mul_pos (div_pos hb hpos) hinner
  have hAx1 : 0 ≤ (x - min_x) *
      (bounds / max (max_x - min_x) (max_y - min_y) * inner) :=
    mul_nonneg (by linarith) hmult.le
  have hAx2 : (x - min_x) *
        (bounds / max (max_x - min_x) (max_y - min_y) * inner) ≤
      (max_x - min_x) *
        (bounds / max (max_x - min_x) (max_y - min_y) * inner) :=
    mul_le_mul_of_nonneg_right (by linarith) hmult.le
  have hAy1 : 0 ≤ (y - min_y) *
      (bounds / max (max_x - min_x) (max_y - min_y) * inner) :=
    mul_nonneg (by linarith) hmult.le
  have hAy2 : (y - min_y) *
        (bounds / max (max_x - min_x) (max_y - min_y) * inner) ≤
      (max_y - min_y) *
        (bounds / max (max_x - min_x) (max_y - min_y) * inner) :=
    mul_le_mul_of_nonneg_right (by linarith) hmult.le
  rw [maxOffsetX, mul_assoc] at hoX2
  rw [maxOffsetY, mul_assoc] at hoY2
  constructor
  · rw [abs_of_nonneg (by linarith)]
    constructor
    · linarith
    · linarith
  · rw [abs_neg, abs_of_nonneg (by linarith)]
    constructor
    · linarith
    · linarith

/-- C5 witness: the theorem applied to the box [0,10] x [0,10] with
bounds = 250, inner draw 1/2, zero offset draws, at the corner (0, 0). -/
theorem scale_within_bounds_witness :
    (5 ≤ |(Scaler.scale scHalf 0 0).1| ∧
        |(Scaler.scale scHalf 0 0).1| ≤ 250 + 5) ∧
      (5 ≤ |(Scaler.scale scHalf 0 0).2| ∧
        |(Scaler.scale scHalf 0 0).2| ≤ 250 + 5) :=
  scale_within_bounds 0 10 0 10 250 (1/2) 0 0 0 0 scHalf
    (by norm_num) (by norm_num) (by norm_num) (by norm_num) (by norm_num)
    (by norm_num) (by norm_num) (by norm_num [maxOffsetX]) (by norm_num)
    (by norm_num [maxOffsetY]) (by norm_num) (by norm_num) (by norm_num)
    (by norm_num) (by norm_num [Scaler.init, scHalf])

/-- The loop of stream_and_plot keeps exactly the next limit - count nonempty
lines, in arrival order. -/
theorem streamLoop_eq_take (limit : ℕ) (lines : List String) :
    ∀ count : ℕ,
      streamLoop limit lines count =
        (lines.filter (fun l => l ≠ "")).take (limit - count) := by
  induction lines with
  | nil => intro count; simp [streamLoop]
  | cons l ls ih =>
    intro count
    by_cases hl : l = ""
    · by_cases hc : count < limit
      · simp [streamLoop, hl, hc, ih count]
      · have h0 : limit - count = 0 := by omega
        simp [streamLoop, hl, Nat.le_of_not_lt hc, h0]
    · by_cases hc : count < limit
      · have h1 : limit - count = (limit - (count + 1)) + 1 := by omega
        simp [streamLoop, hl, hc, h1, ih (count + 1)]
      · have h0 : limit - count = 0 := by omega
        simp [streamLoop, hl, hc, Nat.le_of_not_lt hc, h0]

/-- C6: over a source whose records are all nonempty (a stream of drawings),
stream_and_plot hands exactly the first min(limit, number of drawings)
records to plot_drawing, strictly in arrival order. -/
theorem stream_and_plot_in_order (lines : List String) (limit : ℕ)
    (hne : ∀ l ∈ lines, l ≠ "") :
    stream_and_plot lines limit = lines.take limit ∧
      (stream_and_plot lines limit).length = min limit lines.length := by
  have hf : lines.filter (fun l => l ≠ "") = lines :=
    List.filter_eq_self.mpr (fun a ha => by simpa using hne a ha)
  constructor
  · rw [stream_and_plot, streamLoop_eq_take, hf, Nat.sub_zero]
  · rw [stream_and_plot, streamLoop_eq_take, hf, Nat.sub_zero,
      List.length_take]

/-- C6 witness: with limit = 1 over a source yielding 3 drawings, exactly the
first drawing is processed. -/
theorem stream_and_plot_in_order_witness :
    stream_and_plot ["a", "b", "c"] 1 = ["a", "b", "c"].take 1 ∧
      (stream_and_plot ["a", "b", "c"] 1).length =
        min 1 ["a", "b", "c"].length :=
  stream_and_plot_in_order ["a", "b", "c"] 1 (by decide)

/-- C10: the affirmative check precedes the fault check in the acknowledgment
wait: a line whose stripped form contains an ok token — even when it also
contains an error or alarm token — stops the wait with an acknowledgment, not
with a device fault. -/
theorem ok_takes_precedence (reads : ℕ → List Char) (fuel k : ℕ)
    (hok : hasTok "ok".data (stripChars (reads k)) = true)
    (herr : (hasTok "error".data (stripChars (reads k)) ||
      hasTok "alarm".data (stripChars (reads k))) = true) :
    ackLoop reads (fuel + 1) k = some (AckOutcome.acknowledged, k + 1) := by
  simp [ackLoop, hok]

/-- C10 witness: the first read line contains both ok and error, and the wait
returns an acknowledgment for it. -/
theorem ok_takes_precedence_witness :
    ackLoop (fun _ => "ok; error: 5".data) 1 0 =
      some (AckOutcome.acknowledged, 1) :=
  ok_takes_precedence (fun _ => "ok; error: 5".data) 0 0 (by decide)
    (by decide)

/-- C2: the branch guard of send is the identity test comparing the port
object with the MockSerialPort class object itself, which is true for a
MockSerialPort instance as well; send then enters the acknowledgment wait
and immediately calls s.readline(), a method MockSerialPort does not define,
so every command sent over the mock fallback transport raises AttributeError
instead of draining available lines, pausing and returning normally. -/
theorem mock_send_raises (fuel k : ℕ) :
    send Port.mock fuel k = some (Except.error PyError.attributeError) := by
  simp [send, isNotMockClass]

/-- A wait that observed only token-free lines has not stopped. -/
theorem ackLoop_none_of_no_token (reads : ℕ → List Char)
    (h : ∀ i, tokenB (reads i) = false) :
    ∀ fuel k, ackLoop reads fuel k = none := by
  intro fuel
  induction fuel with
  | zero => intro k; rfl
  | succ fuel ih =>
    intro k
    have hk := h k
    rw [tokenB] at hk
    obtain ⟨⟨h1, h2⟩, h3⟩ := by simpa using hk
    simp [ackLoop, h1, h2, h3]
    exact ih (k + 1)

/-- A wait that stopped observed a line containing one of the tokens. -/
theorem ackLoop_some_token (reads : ℕ → List Char) :
    ∀ (fuel k : ℕ) (r : AckOutcome × ℕ), ackLoop reads fuel k = some r →
      ∃ i, tokenB (reads i) = true := by
  intro fuel
  induction fuel with
  | zero => intro k r h; exact absurd h (by simp [ackLoop])
  | succ fuel ih =>
    intro k r h
    by_cases h1 : hasTok "ok".data (stripChars (reads k)) = true
    · exact ⟨k, by simp [tokenB, h1]⟩
    · rw [Bool.not_eq_true] at h1
      by_cases h2 : (hasTok "error".data (stripChars (reads k)) ||
          hasTok "alarm".data (stripChars (reads k))) = true
      · refine ⟨k, ?_⟩
        rw [tokenB, h1]
        simpa using h2
      · rw [Bool.not_eq_true] at h2
        obtain ⟨h2a, h2b⟩ := by simpa using h2
        rw [show ackLoop reads (fuel + 1) k = ackLoop reads fuel (k + 1) by
          simp [ackLoop, h1, h2a, h2b]] at h
        exact ih (k + 1) r h

/-- One iteration of the wait stops on a line containing a token. -/
theorem ackLoop_one (reads : ℕ → List Char) (k : ℕ)
    (h : tokenB (reads k) = true) :
    ∃ a, ackLoop reads 1 k = some (a, k + 1) := by
  rw [tokenB] at h
  by_cases h1 : hasTok "ok".data (stripChars (reads k)) = true
  · exact ⟨AckOutcome.acknowledged, by simp [ackLoop, h1]⟩
  · rw [Bool.not_eq_true] at h1
    have h2 : (hasTok "error".data (stripChars (reads k)) ||
        hasTok "alarm".data (stripChars (reads k))) = true := by
      simpa [h1] using h
    exact ⟨AckOutcome.deviceFault (stripChars (reads k)),
      by simp [ackLoop, h1, h2]⟩

/-- If the line read at position k + i carries a token, the wait started at k
stops within i + 1 iterations. -/
theorem token_ackLoop_some (reads : ℕ → List Char) :
    ∀ i k : ℕ, tokenB (reads (k + i)) = true →
      ∃ r, ackLoop reads (i + 1) k = some r := by
  intro i
  induction i with
  | zero =>
    intro k h
    rw [Nat.add_zero] at h
    obtain ⟨a, ha⟩ := ackLoop_one reads k h
    exact ⟨(a, k + 1), ha⟩
  | succ i ih =>
    intro k h
    by_cases h1 : hasTok "ok".data (stripChars (reads k)) = true
    · exact ⟨(AckOutcome.acknowledged, k + 1), by simp [ackLoop, h1]⟩
    · rw [Bool.not_eq_true] at h1
      by_cases h2 : (hasTok "error".data (stripChars (reads k)) ||
          hasTok "alarm".data (stripChars (reads k))) = true
      · exact ⟨(AckOutcome.deviceFault (stripChars (reads k)), k + 1),
          by simp [ackLoop, h1, h2]⟩
      · rw [Bool.not_eq_true] at h2
        obtain ⟨h2a, h2b⟩ := by simpa using h2
        obtain ⟨r, hr⟩ := ih (k + 1) (by rw [show k + 1 + i = k + (i + 1) by omega]; exact h)
        exact ⟨r, by rw [show ackLoop reads (i + 1 + 1) k =
          ackLoop reads (i + 1) (k + 1) by simp [ackLoop, h1, h2a, h2b]]; exact hr⟩

/-- C4 (amended): the acknowledgment wait stops exactly when some read line
contains an ok, error or alarm token; over a transport yielding only
token-free lines or empty reads it runs forever — the loop has no timeout. -/
theorem ack_wait_stops_iff (reads : ℕ → List Char) :
    (∃ fuel r, ackLoop reads fuel 0 = some r) ↔
      ∃ i, tokenB (reads i) = true := by
  constructor
  · rintro ⟨fuel, r, h⟩
    exact ackLoop_some_token reads fuel 0 r h
  · rintro ⟨i, h⟩
    obtain ⟨r, hr⟩ := token_ackLoop_some reads i 0 (by simpa using h)
    exact ⟨i + 1, r, hr⟩

/-- C4: counterexample to the claim as stated: over a transport whose every
read is empty (the modelled timeout read), the acknowledgment wait never
stops, however many iterations it is given. -/
theorem ack_wait_nontermination_counterexample :
    ¬ ∃ fuel r, ackLoop (fun _ => "".data) fuel 0 = some r := by
  rintro ⟨fuel, r, h⟩
  have hconst : tokenB "".data = false := by decide
  rw [ackLoop_none_of_no_token (fun _ => "".data) (fun i => hconst) fuel 0]
    at h
  exact Option.noConfusion h

/-- plot_drawing forwards every synthesized command: with acknowledgment
waits that all stop (every line carries a token, faults included), the
written trace accumulates the whole command list — no result ever shortens
it. -/
theorem sendAll_writes_all (reads : ℕ → List Char)
    (htok : ∀ i, tokenB (reads i) = true) :
    ∀ (cmds : List MotionCommand) (k : ℕ) (written : List MotionCommand),
      ∃ k1, sendAllReal reads 1 cmds k written =
        some (written ++ cmds, k1) := by
  intro cmds
  induction cmds with
  | nil => intro k written; exact ⟨k, by simp [sendAllReal]⟩
  | cons c cs ih =>
    intro k written
    obtain ⟨a, ha⟩ := ackLoop_one reads k (htok k)
    obtain ⟨k1, hk1⟩ := ih (k + 1) (written ++ [c])
    refine ⟨k1, ?_⟩
    rw [sendAllReal, ha]
    simp [hk1]

/-- C3 (amended): a next readable line containing error or alarm (and no ok)
stops the acknowledgment wait as a device fault carrying that stripped line,
but send surfaces nothing to its caller: plot_drawing goes on sending, and
every remaining command is still written to the transport — the run is not
aborted. -/
theorem fault_detected_but_run_continues (reads : ℕ → List Char)
    (fuel k : ℕ)
    (hok : hasTok "ok".data (stripChars (reads k)) = false)
    (herr : (hasTok "error".data (stripChars (reads k)) ||
        hasTok "alarm".data (stripChars (reads k))) = true)
    (htok : ∀ i, tokenB (reads i) = true) :
    ackLoop reads (fuel + 1) k =
        some (AckOutcome.deviceFault (stripChars (reads k)), k + 1) ∧
      ∀ (cmds written : List MotionCommand),
        ∃ k1, sendAllReal reads 1 cmds k written =
          some (written ++ cmds, k1) := by
  constructor
  · simp [ackLoop, hok, herr]
  · intro cmds written
    exact sendAll_writes_all reads htok cmds k written

/-- C3 witness: a transport answering every command with an error line — the
first wait reports the fault, and both queued commands are written anyway. -/
theorem fault_detected_but_run_continues_witness :
    ackLoop (fun _ => "error: 9".data) 1 0 =
        some (AckOutcome.deviceFault (stripChars "error: 9".data), 1) ∧
      ∃ k1, sendAllReal (fun _ => "error: 9".data) 1
          [MotionCommand.penUp, MotionCommand.penDown] 0 [] =
        some ([] ++ [MotionCommand.penUp, MotionCommand.penDown], k1) := by
  have hconst : tokenB "error: 9".data = true := by decide
  obtain ⟨h1, h2⟩ := fault_detected_but_run_continues
    (fun _ => "error: 9".data) 0 0 (by decide) (by decide) (fun i => hconst)
  exact ⟨h1, h2 [MotionCommand.penUp, MotionCommand.penDown] []⟩

/-- A segment whose millisecond delta is not positive emits nothing. -/
theorem segCmds_nil_of_delta (sc : Scaler) (st : Stroke) (i : ℕ)
    (h : deltaMs st i ≤ 0) : segCmds sc st i = [] := by
  have h0 : (deltaMs st i : ℝ) ≤ 0 := by exact_mod_cast h
  have hd : (deltaMs st i : ℝ) / 1000 ≤ 0 :=
    div_nonpos_iff.mpr (Or.inr ⟨h0, by norm_num⟩)
  simp [segCmds, hd]

/-- A segment whose computed velocity is not positive emits nothing. -/
theorem segCmds_nil_of_velocity (sc : Scaler) (st : Stroke) (i : ℕ)
    (h : velocity sc st i ≤ 0) : segCmds sc st i = [] := by
  rw [segCmds]
  by_cases hd : (deltaMs st i : ℝ) / 1000 ≤ 0
  · rw [if_pos hd]
  · rw [if_neg hd, if_pos h]

/-- C7: a consecutive point pair with delta_ms <= 0 yields no command, a pair
with velocity <= 0 yields no command, and a stroke all of whose segments have
non-increasing timestamps yields zero feed moves — the synthesis continues
without failing. -/
theorem skip_degenerate_segments (sc : Scaler) (st : Stroke) :
    (∀ i, deltaMs st i ≤ 0 → segCmds sc st i = []) ∧
      (∀ i, velocity sc st i ≤ 0 → segCmds sc st i = []) ∧
      ((∀ i ∈ List.range' 1 (st.xs.length - 1), deltaMs st i ≤ 0) →
        ∀ x y f, MotionCommand.feedMove x y f ∉ strokeCmds sc st) := by
  refine ⟨fun i h => segCmds_nil_of_delta sc st i h,
    fun i h => segCmds_nil_of_velocity sc st i h, ?_⟩
  intro hts x y f hmem
  rw [strokeCmds] at hmem
  rcases List.mem_cons.mp hmem with h1 | hmem1
  · exact MotionCommand.noConfusion h1
  rcases List.mem_cons.mp hmem1 with h1 | hmem2
  · exact MotionCommand.noConfusion h1
  rcases List.mem_cons.mp hmem2 with h1 | hmem3
  · exact MotionCommand.noConfusion h1
  rw [List.mem_flatMap] at hmem3
  obtain ⟨i, hi, hm⟩ := hmem3
  rw [segCmds_nil_of_delta sc st i (hts i hi)] at hm
  exact absurd hm (List.not_mem_nil _)

/-- C7 witness: the theorem applied to a stroke with decreasing timestamps
[100, 50]: its one segment emits nothing and the stroke emits no feed move. -/
theorem skip_degenerate_segments_witness :
    segCmds scUnit stNonInc 1 = [] ∧
      MotionCommand.feedMove 0 0 0 ∉ strokeCmds scUnit stNonInc := by
  obtain ⟨h1, h2, h3⟩ := skip_degenerate_segments scUnit stNonInc
  refine ⟨h1 1 (by norm_num [deltaMs, stNonInc]), h3 ?_ 0 0 0⟩
  intro i hi
  have hi1 : i = 1 := by simpa [stNonInc, List.range'] using hi
  subst hi1
  norm_num [deltaMs, stNonInc]

/-- C8: every feed move found among the commands of a stroke belongs to some
segment i and carries exactly the feed rate
min(velocity i * SPEED_MULTIPLIER, 11500); in particular no emitted feed
rate exceeds the device maximum 11500. -/
theorem feedMove_rate (sc : Scaler) (st : Stroke) (x y : ℚ) (f : ℝ)
    (hmem : MotionCommand.feedMove x y f ∈ strokeCmds sc st) :
    (∃ i ∈ List.range' 1 (st.xs.length - 1),
        f = min (velocity sc st i * (SPEED_MULTIPLIER : ℝ)) 11500) ∧
      f ≤ 11500 := by
  rw [strokeCmds] at hmem
  rcases List.mem_cons.mp hmem with h1 | hmem1
  · exact absurd h1 (by simp)
  rcases List.mem_cons.mp hmem1 with h1 | hmem2
  · exact absurd h1 (by simp)
  rcases List.mem_cons.mp hmem2 with h1 | hmem3
  · exact absurd h1 (by simp)
  rw [List.mem_flatMap] at hmem3
  obtain ⟨i, hi, hm⟩ := hmem3
  rw [segCmds] at hm
  by_cases hd : (deltaMs st i : ℝ) / 1000 ≤ 0
  · rw [if_pos hd] at hm
    exact absurd hm (List.not_mem_nil _)
  rw [if_neg hd] at hm
  by_cases hv : velocity sc st i ≤ 0
  · rw [if_pos hv] at hm
    exact absurd hm (List.not_mem_nil _)
  rw [if_neg hv] at hm
  have heq := List.mem_singleton.mp hm
  injection heq with hx1 hy1 hf1
  subst hf1
  exact ⟨⟨i, hi, rfl⟩, min_le_right _ _⟩

/-- C9: a stroke of length 1 emits exactly pen up, a rapid move to its scaled
first point, and pen down, in that order, and no feed move — this is not an
error. -/
theorem single_point_stroke_cmds (sc : Scaler) (st : Stroke)
    (h : st.xs.length = 1) :
    strokeCmds sc st =
        [MotionCommand.penUp,
          MotionCommand.rapidMove (scaledPoint sc st 0).1
            (scaledPoint sc st 0).2,
          MotionCommand.penDown] ∧
      ∀ x y f, MotionCommand.feedMove x y f ∉ strokeCmds sc st := by
  have h1 : st.xs.length - 1 = 0 := by omega
  constructor
  · simp [strokeCmds, h1]
  · intro x y f
    simp [strokeCmds, h1]

/-- C9 witness: the theorem applied to the one-sample stroke at (0, 0). -/
theorem single_point_stroke_cmds_witness :
    strokeCmds scUnit stSingle =
        [MotionCommand.penUp,
          MotionCommand.rapidMove (scaledPoint scUnit stSingle 0).1
            (scaledPoint scUnit stSingle 0).2,
          MotionCommand.penDown] ∧
      ∀ x y f, MotionCommand.feedMove x y f ∉ strokeCmds scUnit stSingle :=
  single_point_stroke_cmds scUnit stSingle rfl

/-- On the sample stroke from (0,0) to (3,4) in one second, with the unit
scaler, the segment velocity is sqrt(3 ^ 2 + 4 ^ 2) / 1 = 5. -/
theorem velocity_stMove_eq : velocity scUnit stMove 1 = 5 := by
  have h1 : (scaledPoint scUnit stMove 1).1 -
      (scaledPoint scUnit stMove 0).1 = 3 := by
    norm_num [scaledPoint, Scaler.scale, scUnit, stMove]
  have h2 : (scaledPoint scUnit stMove 1).2 -
      (scaledPoint scUnit stMove 0).2 = -4 := by
    norm_num [scaledPoint, Scaler.scale, scUnit, stMove]
  have h3 : deltaMs stMove 1 = 1000 := by norm_num [deltaMs, stMove]
  rw [velocity, h1, h2, h3]
  push_cast
  rw [show ((3:ℝ) ^ 2 + (-4) ^ 2 : ℝ) = 5 ^ 2 by norm_num]
  rw [Real.sqrt_sq (by norm_num)]
  norm_num

/-- The full command list for the sample stroke from (0,0) to (3,4): the
feed move carries min(5 * 20, 11500) = 100. -/
theorem strokeCmds_stMove_eq :
    strokeCmds scUnit stMove =
      [MotionCommand.penUp, MotionCommand.rapidMove 5 (-5),
        MotionCommand.penDown, MotionCommand.feedMove 8 (-9) 100] := by
  have hlen : stMove.xs.length - 1 = 1 := by norm_num [stMove]
  have hr : List.range' 1 1 = [1] := by simp [List.range']
  have hd : ¬ ((deltaMs stMove 1 : ℝ) / 1000 ≤ 0) := by
    norm_num [deltaMs, stMove]
  have hv : ¬ (velocity scUnit stMove 1 ≤ 0) := by
    rw [velocity_stMove_eq]
    norm_num
  have hmin : min ((5:ℝ) * (SPEED_MULTIPLIER : ℝ)) 11500 = 100 := by
    rw [show ((5:ℝ) * (SPEED_MULTIPLIER : ℝ)) = 100 by
      norm_num [SPEED_MULTIPLIER]]
    exact min_eq_left (by norm_num)
  rw [strokeCmds, hlen, hr]
  simp only [List.flatMap_cons, List.flatMap_nil, List.append_nil]
  rw [segCmds, if_neg hd, if_neg hv, velocity_stMove_eq, hmin]
  norm_num [scaledPoint, Scaler.scale, scUnit, stMove]

/-- C8 witness: the theorem applied to the feed move of the sample stroke,
whose rate is 100 = min(velocity * SPEED_MULTIPLIER, 11500). -/
theorem feedMove_rate_witness :
    (∃ i ∈ List.range' 1 (stMove.xs.length - 1),
        (100:ℝ) =
          min (velocity scUnit stMove i * (SPEED_MULTIPLIER : ℝ)) 11500) ∧
      (100:ℝ) ≤ 11500 :=
  feedMove_rate scUnit stMove 8 (-9) 100 (by rw [strokeCmds_stMove_eq]; simp)

/-- The full command list plot_drawing synthesizes for a drawing consisting
of the one-sample stroke: four commands, with the trailing global pen up. -/
theorem drawingCmds_stSingle_eq :
    drawingCmds scUnit [stSingle] =
      [MotionCommand.penUp, MotionCommand.rapidMove 5 (-5),
        MotionCommand.penDown, MotionCommand.penUp] := by
  have h1 : stSingle.xs.length - 1 = 0 := by norm_num [stSingle]
  rw [drawingCmds]
  simp only [List.flatMap_cons, List.flatMap_nil, List.append_nil]
  rw [strokeCmds, h1]
  norm_num [scaledPoint, Scaler.scale, scUnit, stSingle]

/-- C3: counterexample to the claimed abort: over a transport whose every
line reads error: 9, the very first command draws a device fault, yet the
run sends all four commands of the drawing — three further motion commands
are written to the transport after the first device fault. -/
theorem fault_abort_counterexample :
    ackLoop (fun _ => "error: 9".data) 1 0 =
        some (AckOutcome.deviceFault (stripChars "error: 9".data), 1) ∧
      sendAllReal (fun _ => "error: 9".data) 1 (drawingCmds scUnit [stSingle])
          0 [] =
        some (drawingCmds scUnit [stSingle], 4) ∧
      (drawingCmds scUnit [stSingle]).length = 4 := by
  have hok : hasTok "ok".data (stripChars "error: 9".data) = false := by
    decide
  have herr : (hasTok "error".data (stripChars "error: 9".data) ||
      hasTok "alarm".data (stripChars "error: 9".data)) = true := by decide
  refine ⟨by simp [ackLoop, hok, herr], ?_,
    by rw [drawingCmds_stSingle_eq]; rfl⟩
  rw [drawingCmds_stSingle_eq]
  simp [sendAllReal, ackLoop, hok, herr]

end Plotter
